import Mathlib

/-
Verification development for the cube-tools core data model
(cube_tools/core/data_objects.py).

Shallow embedding conventions:
- numpy arrays are nested lists of rationals; the nesting encodes a
  rectangular array of the corresponding rank.
- Python exceptions are modelled by the `Except PyError` monad.
- astropy `u.Quantity(values, unit)` is modelled by `Quantity` carrying an
  optional unit string (`none` = no unit attached).
- the transcendental WAVE-LOG transform (np.exp) is kept symbolic in
  `DispVal` and given real semantics by `DispVal.toReals`.
-/

namespace CubeTools

abbrev Vec := List ℚ
abbrev Mat2 := List (List ℚ)
abbrev Mat3 := List (List (List ℚ))
abbrev BVec := List Bool
abbrev BMat2 := List (List Bool)
abbrev BMat3 := List (List (List Bool))
abbrev MetaMap := List (String × String)

/-- Python exception kinds observed in the embedded code paths. -/
inductive PyError where
  | unboundLocal
  | typeError
  | notImplemented
  | indexError
  | attributeError
  | valueError
deriving DecidableEq

instance {ε α : Type} [DecidableEq ε] [DecidableEq α] :
    DecidableEq (Except ε α) := fun x y =>
  match x, y with
  | .error a, .error b =>
      if h : a = b then .isTrue (by rw [h])
      else .isFalse (fun hc => h (Except.error.inj hc))
  | .ok a, .ok b =>
      if h : a = b then .isTrue (by rw [h])
      else .isFalse (fun hc => h (Except.ok.inj hc))
  | .error _, .ok _ => .isFalse (fun hc => Except.noConfusion hc)
  | .ok _, .error _ => .isFalse (fun hc => Except.noConfusion hc)

/-- Python sequence indexing `l[i]` with negative-index wraparound; out of
range raises IndexError. -/
def pyGet {α : Type} (l : List α) (i : Int) : Except PyError α :=
  let j : Int := if i < 0 then (l.length : Int) + i else i
  if h : 0 ≤ j ∧ j.toNat < l.length then .ok (l.get ⟨j.toNat, h.2⟩)
  else .error .indexError

/-- Python/numpy indexing with a nonnegative index. -/
def pyGetN {α : Type} (l : List α) (i : Nat) : Except PyError α :=
  if h : i < l.length then .ok (l.get ⟨i, h⟩) else .error .indexError

/-- numpy `np.arange(start, stop)` with unit step over exact rationals:
`ceil (stop - start)` samples `start, start+1, ...`. -/
def npArange (start stop : ℚ) : Vec :=
  (List.range (Int.toNat ⌈stop - start⌉)).map (fun (i : ℕ) => start + (i : ℚ))

/-- numpy `np.arange(start, stop, step)`; a zero step is rejected by numpy. -/
def npArangeStep (start stop step : ℚ) : Except PyError Vec :=
  if step = 0 then .error .valueError
  else .ok ((List.range (Int.toNat ⌈(stop - start) / step⌉)).map
    (fun (i : ℕ) => start + step * (i : ℚ)))

/-- The slice of `wcs.wcs` state used by data_objects.py: per-axis reference
pixel, reference value, step, step matrix, unit strings and axis types. -/
structure Wcs where
  crpix : List ℚ
  crval : List ℚ
  cdelt : List ℚ
  cd : List (List ℚ)
  cunit : List String
  ctype : List String
deriving DecidableEq

/-- astropy `u.Quantity(value, unit)`: a value tagged with an optional unit. -/
structure Quantity (α : Type) where
  value : α
  unit : Option String
deriving DecidableEq

/-- Dispersion values: either the (possibly index-based) candidate sequence,
or that sequence routed through the WAVE-LOG transform
`crval * exp(cd22 * (x - crpix2) / crval)` with the stored parameters.
Kept symbolic because `np.exp` is transcendental. -/
inductive DispVal where
  | lin : Vec → DispVal
  | wlog : ℚ → ℚ → ℚ → Vec → DispVal
deriving DecidableEq

/-- Real semantics of the dispersion values; the WAVE-LOG branch is
`crval * exp(cd22 * (x - crpix2) / crval)` applied pointwise
(data_objects.py lines 194-198). -/
noncomputable def DispVal.toReals : DispVal → List ℝ
  | .lin v => v.map (fun (x : ℚ) => (x : ℝ))
  | .wlog crval2 cd22 crpix2 v =>
      v.map (fun (x : ℚ) => (crval2 : ℝ) *
        Real.exp ((cd22 : ℝ) * ((x : ℝ) - (crpix2 : ℝ)) / (crval2 : ℝ)))

/-- A numpy array of rank 1, 2 or 3. -/
inductive NArr where
  | a1 : Vec → NArr
  | a2 : Mat2 → NArr
  | a3 : Mat3 → NArr
deriving DecidableEq

def NArr.shape0 : NArr → Nat
  | .a1 v => v.length
  | .a2 m => m.length
  | .a3 t => t.length

def NArr.ndim : NArr → Nat
  | .a1 _ => 1
  | .a2 _ => 2
  | .a3 _ => 3

def rdim1 (d : Mat2) : Nat := (d.headD []).length

def NArr.shape1 : NArr → Except PyError Nat
  | .a1 _ => .error .indexError
  | .a2 m => .ok (rdim1 m)
  | .a3 t => .ok ((t.headD []).length)

/-- The uncertainty object: data_objects.py only relies on its `.array`
payload, its subscriptability, and `__class__`-reconstruction. -/
structure Uncert where
  array : NArr
deriving DecidableEq

/-- Values stored in the `mask` slot across the code base: a plain boolean
array (rank 1 or 3), or a 1-D numpy masked array (payload plus mask), which
SpectrumData.collapse stores there (line 290). -/
inductive MaskV where
  | b1 : BVec → MaskV
  | b3 : BMat3 → MaskV
  | m1 : Vec → BVec → MaskV
deriving DecidableEq

/-- Lines 189-192 of SpectrumData.__init__: the dispersion unit is
`cunit[-1]` when the wcs declares exactly three units, else `cunit[0]`. -/
def dispUnitFromWcs (w : Wcs) : Except PyError String :=
  if w.cunit.length = 3 then pyGet w.cunit (-1) else pyGet w.cunit 0

/-- Lines 183-198 of SpectrumData.__init__, factored over the already
computed candidate sequence `cand` (the result of
`np.arange(crpix[-1], crpix[-1] + data.shape[0])`; floating-point rounding
can give it a length other than `n`, which exact arithmetic cannot, so the
candidate is a parameter here): fall back to `np.arange(n)` on a length
mismatch, select the unit from `cunit` (last entry when three units are
declared, first entry otherwise), then apply the WAVE-LOG transform when
`ctype[-1] = 'WAVE-LOG'`. -/
def dispFromCandidate (w : Wcs) (n : Nat) (cand : Vec) :
    Except PyError (DispVal × String) := do
  let cand := if cand.length ≠ n then (List.range n).map (fun (i : ℕ) => (i : ℚ))
    else cand
  let dispUnit ← dispUnitFromWcs w
  let ctypeLast ← pyGet w.ctype (-1)
  if ctypeLast = "WAVE-LOG" then do
    let crval2 ← pyGet w.crval 2
    let cdrow ← pyGet w.cd 2
    let cd22 ← pyGet cdrow 2
    let crpix2 ← pyGet w.crpix 2
    pure (.wlog crval2 cd22 crpix2 cand, dispUnit)
  else
    pure (.lin cand, dispUnit)

/-- SpectrumData: the base NDData fields plus the derived state set by
`__init__` (dispersion, optional cross-dispersion, flux, error). -/
structure SpectrumData where
  data : NArr
  uncertainty : Option Uncert
  mask : Option MaskV
  wcs : Option Wcs
  meta : MetaMap
  unit : Option String
  dispersion : Quantity DispVal
  crossDispersion : Option (Quantity Vec)
  flux : Quantity NArr
  error : Option (Quantity NArr)
deriving DecidableEq

/-- Lines 200-208 of SpectrumData.__init__: the cross-dispersion axis,
derived for data of rank above 1 from the wcs axis-1 reference value, step
and unit. -/
def crossFromWcs (w : Wcs) (data : NArr) :
    Except PyError (Option (Quantity Vec)) :=
  if data.ndim > 1 then do
    let cStart ← pyGet w.crval 1
    let cStep ← pyGet w.cdelt 1
    let s1 ← data.shape1
    let cvals ← npArangeStep cStart (cStart + cStep * (s1 : ℚ)) cStep
    let cu ← pyGet w.cunit 1
    pure (some (Quantity.mk cvals (some cu)))
  else pure none

/-- SpectrumData.__init__ (lines 180-214). The dispersion block (183-208)
runs only when a wcs is present; line 211 then reads `disp_data` and
`disp_unit` unconditionally, so with no wcs both names are unbound and
Python raises UnboundLocalError before any derived field is set. -/
def SpectrumData.init (data : NArr) (uncertainty : Option Uncert)
    (mask : Option MaskV) (wcs : Option Wcs) (meta : MetaMap)
    (unit : Option String) : Except PyError SpectrumData := do
  match wcs with
  | none => Except.error PyError.unboundLocal
  | some w => do
      let p ← pyGet w.crpix (-1)
      let cand := npArange p (p + (data.shape0 : ℚ))
      let dd ← dispFromCandidate w data.shape0 cand
      let cross ← crossFromWcs w data
      let errq : Option (Quantity NArr) :=
        uncertainty.map (fun uc => Quantity.mk uc.array unit)
      pure (SpectrumData.mk data uncertainty mask (some w) meta unit
        (Quantity.mk dd.1 (some dd.2)) cross (Quantity.mk data unit) errq)

/-- CubeData: the 3-D container (NDData fields only; CubeData.__init__ adds
no derived state). -/
structure CubeData where
  data : Mat3
  uncertainty : Option Uncert
  mask : Option MaskV
  wcs : Option Wcs
  meta : MetaMap
  unit : Option String
deriving DecidableEq

/-- numpy basic indexing `a[:, i, j]` on a rank-3 array: selects one element
from every plane; out-of-range indices raise IndexError. -/
def sliceCol {α : Type} (a : List (List (List α))) (i j : Nat) :
    Except PyError (List α) :=
  a.mapM (fun p => do pyGetN (← pyGetN p i) j)

/-- Lines 123-126 of get_spectrum: `self.uncertainty[:, x, y]` when an
uncertainty is present (slicing preserves the uncertainty class), else
None. -/
def sliceUncert (u : Option Uncert) (x y : Nat) :
    Except PyError (Option Uncert) :=
  match u with
  | none => pure none
  | some uc => match uc.array with
    | .a3 a => do
        let s ← sliceCol a x y
        pure (some (Uncert.mk (.a1 s)))
    | _ => Except.error PyError.typeError

/-- Lines 128-131 of get_spectrum: `self.mask[:, x, y]` when a mask is
present, else None. -/
def sliceMask (m : Option MaskV) (x y : Nat) :
    Except PyError (Option MaskV) :=
  match m with
  | none => pure none
  | some (.b3 mm) => do
      let s ← sliceCol mm x y
      pure (some (MaskV.b1 s))
  | some _ => Except.error PyError.typeError

/-- CubeData.get_spectrum (lines 120-135): data is indexed `[:, y, x]` while
uncertainty and mask are indexed `[:, x, y]`; the slices are handed to the
SpectrumData constructor together with the cube's wcs, meta and unit. -/
def CubeData.get_spectrum (c : CubeData) (x y : Nat) :
    Except PyError SpectrumData := do
  let new_data ← sliceCol c.data y x
  let new_uncertainty ← sliceUncert c.uncertainty x y
  let new_mask ← sliceMask c.mask x y
  SpectrumData.init (.a1 new_data) new_uncertainty new_mask c.wcs c.meta
    c.unit

/-! Masked-array reductions. A numpy masked array is modelled as a data
array together with an optional boolean mask of the same shape (`true`
marks an excluded element). A reduction along an axis reduces every fiber
along that axis to one cell: the cell value is computed from the elements
whose mask bit is false, and the cell is itself masked exactly when every
contributing element was masked (the payload numpy leaves at a fully
masked cell is unspecified; 0 is used here and no claim observes it). -/

/-- The elements of a fiber that the mask keeps. -/
def keptCell (vals : Vec) (mk : BVec) : Vec :=
  (vals.zip mk).filterMap (fun p => if p.2 then none else some p.1)

def maskedMeanCell (vals : Vec) (mk : BVec) : ℚ × Bool :=
  let kept := keptCell vals mk
  if kept.length = 0 then (0, true)
  else (kept.sum / (kept.length : ℚ), false)

def maskedSumCell (vals : Vec) (mk : BVec) : ℚ × Bool :=
  let kept := keptCell vals mk
  if kept.length = 0 then (0, true) else (kept.sum, false)

def insSorted (x : ℚ) : Vec → Vec
  | [] => [x]
  | y :: ys => if x ≤ y then x :: y :: ys else y :: insSorted x ys

def sortQ : Vec → Vec
  | [] => []
  | x :: xs => insSorted x (sortQ xs)

/-- numpy median of a 1-D array: middle of the sorted values, or the average
of the two middle values for even length. -/
def medianOf (v : Vec) : ℚ :=
  let s := sortQ v
  let n := s.length
  if n = 0 then 0
  else if n % 2 = 1 then s.getD (n / 2) 0
  else (s.getD (n / 2 - 1) 0 + s.getD (n / 2) 0) / 2

def maskedMedianCell (vals : Vec) (mk : BVec) : ℚ × Bool :=
  let kept := keptCell vals mk
  if kept.length = 0 then (0, true) else (medianOf kept, false)

def dim1 (d : Mat3) : Nat := (d.headD []).length

def dim2 (d : Mat3) : Nat := ((d.headD []).headD []).length

/-- Fiber of a rank-3 array along axis 0 at position (j, k). -/
def fib0 {α : Type} (x : α) (d : List (List (List α))) (j k : Nat) :
    List α :=
  d.map (fun p => (p.getD j []).getD k x)

/-- Fiber along axis 1 at position (i, k). -/
def fib1 {α : Type} (x : α) (d : List (List (List α))) (i k : Nat) :
    List α :=
  (d.getD i []).map (fun row => row.getD k x)

/-- Fiber along axis 2 at position (i, j). -/
def fib2 {α : Type} (d : List (List (List α))) (i j : Nat) : List α :=
  (d.getD i []).getD j []

/-- Reduce an n1 x n2 grid of fibers to a data grid and a mask grid. -/
def reduceGrid (cell : Vec → BVec → ℚ × Bool) (n1 n2 : Nat)
    (fv : Nat → Nat → Vec) (fm : Nat → Nat → BVec) : Mat2 × BMat2 :=
  ((List.range n1).map (fun j => (List.range n2).map
      (fun k => (cell (fv j k) (fm j k)).1)),
   (List.range n1).map (fun j => (List.range n2).map
      (fun k => (cell (fv j k) (fm j k)).2)))

/-- Masked reduction of a rank-3 array along an axis; numpy raises on an
out-of-range axis. -/
def mReduce3 (cell : Vec → BVec → ℚ × Bool) (d : Mat3) (m : Option BMat3)
    (axis : Nat) : Except PyError (Mat2 × BMat2) :=
  let mk := fun (v : Vec) (f : BMat3 → BVec) => match m with
    | none => List.replicate v.length false
    | some mm => f mm
  match axis with
  | 0 => .ok (reduceGrid cell (dim1 d) (dim2 d) (fib0 0 d)
      (fun j k => mk (fib0 0 d j k) (fun mm => fib0 false mm j k)))
  | 1 => .ok (reduceGrid cell d.length (dim2 d) (fib1 0 d)
      (fun i k => mk (fib1 0 d i k) (fun mm => fib1 false mm i k)))
  | 2 => .ok (reduceGrid cell d.length (dim1 d) (fib2 d)
      (fun i j => mk (fib2 d i j) (fun mm => fib2 mm i j)))
  | _ => .error .indexError

/-- Reduce a line of n fibers to a data line and a mask line. -/
def reduceLine (cell : Vec → BVec → ℚ × Bool) (n : Nat)
    (fv : Nat → Vec) (fm : Nat → BVec) : Vec × BVec :=
  ((List.range n).map (fun i => (cell (fv i) (fm i)).1),
   (List.range n).map (fun i => (cell (fv i) (fm i)).2))

/-- Column fiber of a rank-2 array (axis 0). -/
def gfib0 {α : Type} (x : α) (d : List (List α)) (k : Nat) : List α :=
  d.map (fun row => row.getD k x)

/-- Row fiber of a rank-2 array (axis 1). -/
def gfib1 {α : Type} (d : List (List α)) (i : Nat) : List α :=
  d.getD i []

/-- Masked reduction of a rank-2 array along an axis. -/
def mReduce2 (cell : Vec → BVec → ℚ × Bool) (d : Mat2) (m : Option BMat2)
    (axis : Nat) : Except PyError (Vec × BVec) :=
  let mk := fun (v : Vec) (f : BMat2 → BVec) => match m with
    | none => List.replicate v.length false
    | some mm => f mm
  match axis with
  | 0 => .ok (reduceLine cell (rdim1 d) (gfib0 0 d)
      (fun k => mk (gfib0 0 d k) (fun mm => gfib0 false mm k)))
  | 1 => .ok (reduceLine cell d.length (gfib1 d)
      (fun i => mk (gfib1 d i) (fun mm => gfib1 mm i)))
  | _ => .error .indexError

def not2 (m : BMat2) : BMat2 := m.map (fun row => row.map not)

def not3 (m : BMat3) : BMat3 := m.map not2

/-- Interpretation of the `mask` slot as the mask argument of
`np.ma.masked_array(data3d, mask=...)`: absent, or a rank-3 boolean array
(anything else is rejected by numpy). -/
def asMask3 : Option MaskV → Except PyError (Option BMat3)
  | none => .ok none
  | some (.b3 m) => .ok (some m)
  | some _ => .error .typeError

/-- CubeData.collapse_to_spectrum (lines 137-152). Evaluation order of the
source: `~filter_mask` first (TypeError when filter_mask is None, before
any reduction), then `self.uncertainty.array` (AttributeError when
uncertainty is None), then the method dispatch. The median branch calls
`.median` which masked arrays do not have (AttributeError); any other
method leaves `new_mdata` unbound (UnboundLocalError at the return). -/
def CubeData.collapse_to_spectrum (c : CubeData) (method : String)
    (filter_mask : Option BMat3) :
    Except PyError (SpectrumData × BVec) := do
  let fm ← match filter_mask with
    | none => Except.error PyError.typeError
    | some fm => pure fm
  let uarr ← match c.uncertainty with
    | none => Except.error PyError.attributeError
    | some uc => match uc.array with
      | .a3 a => pure a
      | _ => Except.error PyError.typeError
  match method with
  | "mean" => do
      let s1 ← mReduce3 maskedMeanCell c.data (some (not3 fm)) 1
      let s2 ← mReduce2 maskedMeanCell s1.1 (some s1.2) 1
      let u1 ← mReduce3 maskedMeanCell uarr (some (not3 fm)) 1
      let u2 ← mReduce2 maskedMeanCell u1.1 (some u1.2) 1
      let sp ← SpectrumData.init (.a1 s2.1) (some (Uncert.mk (.a1 u2.1)))
        (some (MaskV.b3 (not3 fm))) c.wcs c.meta c.unit
      pure (sp, s2.2.map not)
  | "median" => Except.error PyError.attributeError
  | _ => Except.error PyError.unboundLocal

/-- ImageData: NDData fields plus the two axes derived by `__init__` when a
wcs is present (when it is absent the attributes stay unset, which no claim
observes). -/
structure ImageData where
  data : Mat2
  uncertainty : Option Uncert
  mask : Option MaskV
  wcs : Option Wcs
  meta : MetaMap
  unit : Option String
  dispersion : Option (Quantity Vec)
  crossDispersion : Option (Quantity Vec)
deriving DecidableEq

/-- ImageData.__init__ (lines 306-320): with a wcs, derive two linear axes
from crval/cdelt/cunit entries 0 and 1 via np.arange. -/
def ImageData.init (data : Mat2) (uncertainty : Option Uncert)
    (mask : Option MaskV) (wcs : Option Wcs) (meta : MetaMap)
    (unit : Option String) : Except PyError ImageData := do
  match wcs with
  | none =>
      pure (ImageData.mk data uncertainty mask none meta unit none none)
  | some w => do
      let dStart ← pyGet w.crval 0
      let dStep ← pyGet w.cdelt 0
      let dvals ← npArangeStep dStart (dStart + dStep * (data.length : ℚ))
        dStep
      let dU ← pyGet w.cunit 0
      let cStart ← pyGet w.crval 1
      let cStep ← pyGet w.cdelt 1
      let cvals ← npArangeStep cStart (cStart + cStep * (rdim1 data : ℚ))
        cStep
      let cU ← pyGet w.cunit 1
      pure (ImageData.mk data uncertainty mask (some w) meta unit
        (some (Quantity.mk dvals (some dU)))
        (some (Quantity.mk cvals (some cU))))

/-- CubeData.collapse_to_image (lines 154-173): mask the cube with its own
mask, optionally slice the spectral axis by index range, reduce by the
named method (mode leaves `new_data` unbound; an unknown method raises
NotImplementedError), and build an ImageData with no uncertainty and with
the cube's own, unreduced mask. -/
def CubeData.collapse_to_image (c : CubeData)
    (wavelength_range : Option (Nat × Nat)) (method : String)
    (axis : Nat) : Except PyError ImageData := do
  let m0 ← asMask3 c.mask
  let d := match wavelength_range with
    | none => c.data
    | some r => (c.data.drop r.1).take (r.2 - r.1)
  let m1 := match wavelength_range with
    | none => m0
    | some r => m0.map (fun mm => (mm.drop r.1).take (r.2 - r.1))
  let red ← match method with
    | "mean" => mReduce3 maskedMeanCell d m1 axis
    | "median" => mReduce3 maskedMedianCell d m1 axis
    | "mode" => Except.error PyError.unboundLocal
    | _ => Except.error PyError.notImplemented
  ImageData.init red.1 none c.mask c.wcs c.meta c.unit

/-- SpectrumData.collapse (lines 270-291): invert filter_mask, mask data and
uncertainty with it, reduce both by the named method along `axis`, and
build a new SpectrumData whose uncertainty wraps the reduced uncertainty
payload and whose mask slot holds the reduced uncertainty masked array
itself. The median branch calls the non-existent `.median` method
(AttributeError); other unknown methods leave `new_mdata` unbound. The
rank-1 case is not modelled: reducing a 1-D masked array yields a 0-d
result whose `shape[0]` the subsequent constructor cannot take. -/
def asMat2 (x : NArr) : Except PyError Mat2 :=
  match x with
  | .a2 m => pure m
  | _ => Except.error PyError.typeError

/-- Line 275: `self.uncertainty.array`, an AttributeError when the
uncertainty is absent. -/
def uncertArr2 (u : Option Uncert) : Except PyError Mat2 :=
  match u with
  | none => Except.error PyError.attributeError
  | some uc => asMat2 uc.array

/-- The method dispatch of SpectrumData.collapse (lines 277-285): mean and
sum use the masked reductions; median calls the non-existent `.median`
method of masked arrays (AttributeError); any other name leaves
`new_mdata` unbound. -/
def cellForMethod (method : String) :
    Except PyError (Vec → BVec → ℚ × Bool) :=
  match method with
  | "mean" => pure maskedMeanCell
  | "median" => Except.error PyError.attributeError
  | "sum" => pure maskedSumCell
  | _ => Except.error PyError.unboundLocal

def SpectrumData.collapse (s : SpectrumData) (method : String) (axis : Nat)
    (filter_mask : Option BMat2) : Except PyError SpectrumData := do
  let fm : Option BMat2 := filter_mask.map not2
  let d2 ← asMat2 s.data
  let uarr ← uncertArr2 s.uncertainty
  let cell ← cellForMethod method
  let redD ← mReduce2 cell d2 fm axis
  let redU ← mReduce2 cell uarr fm axis
  SpectrumData.init (.a1 redD.1) (some (Uncert.mk (.a1 redU.1)))
    (some (MaskV.m1 redU.1 redU.2)) s.wcs s.meta s.unit

/-! Arithmetic. BaseData's operators (__add__, __sub__, __mul__, __div__,
lines 37-95) are shared by every concrete subtype; the subtype is modelled
as a tag so that the dispatch of `self.add` (which returns an instance of
the receiver's class) is expressible. -/

inductive CType where
  | base
  | cube
  | spectrum
  | image
deriving DecidableEq

/-- A BaseData value of some concrete subtype. -/
structure BData where
  ctype : CType
  data : NArr
  uncertainty : Option Uncert
  mask : Option MaskV
  wcs : Option Wcs
  unit : Option String
deriving DecidableEq

/-- The bare NDData wrapper each operator builds around its operand before
delegating (`NDData(other.data, wcs=self.wcs, unit=..., uncertainty=...,
mask=...)`). -/
structure NDDataW where
  data : NArr
  wcs : Option Wcs
  unit : Option String
  uncertainty : Option Uncert
  mask : Option MaskV
deriving DecidableEq

/-- Zip two equally shaped rank-1 arrays; a shape mismatch is an error. -/
def zipExact1 (f : ℚ → ℚ → ℚ) : Vec → Vec → Except PyError Vec
  | [], [] => .ok []
  | a :: as, b :: bs => do
      let t ← zipExact1 f as bs
      pure (f a b :: t)
  | _, _ => .error .valueError

def zipExact2 (f : ℚ → ℚ → ℚ) : Mat2 → Mat2 → Except PyError Mat2
  | [], [] => .ok []
  | a :: as, b :: bs => do
      let r ← zipExact1 f a b
      let t ← zipExact2 f as bs
      pure (r :: t)
  | _, _ => .error .valueError

def zipExact3 (f : ℚ → ℚ → ℚ) : Mat3 → Mat3 → Except PyError Mat3
  | [], [] => .ok []
  | a :: as, b :: bs => do
      let r ← zipExact2 f a b
      let t ← zipExact3 f as bs
      pure (r :: t)
  | _, _ => .error .valueError

/-- Elementwise combination of two arrays of identical shape (broadcasting
between distinct shapes is not modelled; no claim relies on it). -/
def zipSame (f : ℚ → ℚ → ℚ) : NArr → NArr → Except PyError NArr
  | .a1 a, .a1 b => do pure (.a1 (← zipExact1 f a b))
  | .a2 a, .a2 b => do pure (.a2 (← zipExact2 f a b))
  | .a3 a, .a3 b => do pure (.a3 (← zipExact3 f a b))
  | _, _ => .error .valueError

/-- numpy `np.empty(shape=self.data.shape)` followed by `fill(v)`: an array
of the receiver's shape filled with the scalar. -/
def fullLike (d : NArr) (v : ℚ) : NArr :=
  match d with
  | .a1 a => .a1 (a.map (fun _ => v))
  | .a2 a => .a2 (a.map (fun row => row.map (fun _ => v)))
  | .a3 a => .a3 (a.map (fun p => p.map (fun row => row.map (fun _ => v))))

/-- Modelled from the spec: the arithmetic kernel of the external astropy
NDArithmeticMixin (`self.add` and friends), which is not part of this
repository. Its documented interface (spec section 4.1) returns a new
instance of the receiver's concrete class carrying the receiver's wcs,
with the data arrays combined elementwise; uncertainty, mask and unit
propagation are delegated to the external service and not modelled (no
claim depends on them). -/
def ndArith (f : ℚ → ℚ → ℚ) (self : BData) (other : NDDataW) :
    Except PyError BData := do
  let d ← zipSame f self.data other.data
  pure (BData.mk self.ctype d none none self.wcs self.unit)

/-- The operand kinds accepted by the operators: a scalar, a bare array, or
an NDData-like container. -/
inductive Operand where
  | scalar : ℚ → Operand
  | arr : NArr → Operand
  | nd : BData → Operand
deriving DecidableEq

/-- BaseData.__add__ (lines 37-50): a scalar is broadcast to the receiver's
shape; a non-NDData operand is wrapped with the receiver's wcs and unit; an
NDData operand is rewrapped with the receiver's wcs but its own unit,
uncertainty and mask; then the kernel combines them. -/
def BData.addOp (self : BData) (other : Operand) : Except PyError BData :=
  match other with
  | .scalar v =>
      ndArith (fun a b => a + b) self
        (NDDataW.mk (fullLike self.data v) self.wcs self.unit none none)
  | .arr a =>
      ndArith (fun a b => a + b) self
        (NDDataW.mk a self.wcs self.unit none none)
  | .nd o =>
      ndArith (fun a b => a + b) self
        (NDDataW.mk o.data self.wcs o.unit o.uncertainty o.mask)

/-- BaseData.__sub__ (lines 52-65). -/
def BData.subOp (self : BData) (other : Operand) : Except PyError BData :=
  match other with
  | .scalar v =>
      ndArith (fun a b => a - b) self
        (NDDataW.mk (fullLike self.data v) self.wcs self.unit none none)
  | .arr a =>
      ndArith (fun a b => a - b) self
        (NDDataW.mk a self.wcs self.unit none none)
  | .nd o =>
      ndArith (fun a b => a - b) self
        (NDDataW.mk o.data self.wcs o.unit o.uncertainty o.mask)

/-- BaseData.__mul__ (lines 67-80). -/
def BData.mulOp (self : BData) (other : Operand) : Except PyError BData :=
  match other with
  | .scalar v =>
      ndArith (fun a b => a * b) self
        (NDDataW.mk (fullLike self.data v) self.wcs self.unit none none)
  | .arr a =>
      ndArith (fun a b => a * b) self
        (NDDataW.mk a self.wcs self.unit none none)
  | .nd o =>
      ndArith (fun a b => a * b) self
        (NDDataW.mk o.data self.wcs o.unit o.uncertainty o.mask)

/-- BaseData.__div__ (lines 82-95). -/
def BData.divOp (self : BData) (other : Operand) : Except PyError BData :=
  match other with
  | .scalar v =>
      ndArith (fun a b => a / b) self
        (NDDataW.mk (fullLike self.data v) self.wcs self.unit none none)
  | .arr a =>
      ndArith (fun a b => a / b) self
        (NDDataW.mk a self.wcs self.unit none none)
  | .nd o =>
      ndArith (fun a b => a / b) self
        (NDDataW.mk o.data self.wcs o.unit o.uncertainty o.mask)

/-- A linear 3-axis wcs used by concrete instances. -/
def wLin : Wcs :=
  Wcs.mk [0, 0, 0] [0, 0, 500] [1, 1, 1]
    [[1, 0, 0], [0, 1, 0], [0, 0, 1]] ["deg", "deg", "m"]
    ["RA", "DEC", "WAVE"]

/-- A concrete 2 x 2 x 2 cube with uncertainty, mask, wcs, meta and unit. -/
def cubeW : CubeData :=
  CubeData.mk [[[1, 2], [3, 4]], [[5, 6], [7, 8]]]
    (some (Uncert.mk (.a3 [[[10, 20], [30, 40]], [[50, 60], [70, 80]]])))
    (some (MaskV.b3 [[[false, true], [true, false]],
      [[true, false], [false, true]]]))
    (some wLin) [("k", "v")] (some "Jy")

/-- The spectrum cubeW.get_spectrum 0 1 evaluates to. -/
def specW : SpectrumData :=
  SpectrumData.mk (.a1 [3, 7]) (some (Uncert.mk (.a1 [20, 60])))
    (some (MaskV.b1 [true, false])) (some wLin) [("k", "v")] (some "Jy")
    (Quantity.mk (.lin [0, 1]) (some "m")) none
    (Quantity.mk (.a1 [3, 7]) (some "Jy"))
    (some (Quantity.mk (.a1 [20, 60]) (some "Jy")))

/-- A one-axis wcs whose single unit string is "m" and whose axis type is
linear wavelength. -/
def wUnitful : Wcs := Wcs.mk [2] [500] [] [] ["m"] ["WAVE"]

/-- A three-axis WAVE-LOG wcs with reference value 500, step matrix entry
cd[2][2] = 1/1000 and zero reference pixels. -/
def wLogMini : Wcs :=
  Wcs.mk [0, 0, 0] [0, 0, 500] [1, 1, 1]
    [[0, 0, 0], [0, 0, 0], [0, 0, 1/1000]] ["m", "m", "m"]
    ["a", "b", "WAVE-LOG"]

/-- The spectrum produced by the constructor on [1, 2, 3] under the
WAVE-LOG wcs wLogMini. -/
def specLog : SpectrumData :=
  SpectrumData.mk (.a1 [1, 2, 3]) none none (some wLogMini) [] none
    (Quantity.mk (.wlog 500 (1/1000) 0 [0, 1, 2]) (some "m")) none
    (Quantity.mk (.a1 [1, 2, 3]) none) none

/-- Pointwise map over an array, used to state arithmetic results. -/
def NArr.mapQ (f : ℚ → ℚ) : NArr → NArr
  | .a1 v => .a1 (v.map f)
  | .a2 m => .a2 (m.map (fun row => row.map f))
  | .a3 t => .a3 (t.map (fun p => p.map (fun row => row.map f)))

/-- A concrete cube-typed receiver for the arithmetic witnesses. -/
def aW : BData :=
  BData.mk CType.cube (.a1 [1, 2]) none none (some wLin) (some "m")

/-- A concrete image-typed operand. -/
def bW : BData :=
  BData.mk CType.image (.a1 [3, 4]) none none none (some "s")

/-- The arithmetic results on aW and bW share aW's type and wcs. -/
def rOpW (v : Vec) : BData :=
  BData.mk CType.cube (.a1 v) none none (some wLin) (some "m")

/-- The spectrum produced by the sum-collapse witness: on a fully excluded
1 x 1 spectrum the reduced payload and mask are [0] and [true]. -/
def specC8 : SpectrumData :=
  SpectrumData.mk (.a1 [0]) (some (Uncert.mk (.a1 [0])))
    (some (MaskV.m1 [0] [true])) (some wLin) [] none
    (Quantity.mk (.lin [0]) (some "m")) none
    (Quantity.mk (.a1 [0]) none) (some (Quantity.mk (.a1 [0]) none))

/-! Helper lemmas about the Except monad used to step through the embedded
control flow. -/

theorem ebind_ok {α β : Type} (a : α) (f : α → Except PyError β) :
    (Except.ok a >>= f) = f a := rfl

theorem ebind_err {α β : Type} (e : PyError) (f : α → Except PyError β) :
    ((Except.error e : Except PyError α) >>= f) = Except.error e := rfl

theorem ebind_eq_ok {α β : Type} {x : Except PyError α}
    {f : α → Except PyError β} {b : β} :
    x >>= f = .ok b ↔ ∃ a, x = .ok a ∧ f a = .ok b := by
  cases x with
  | error e => simp [ebind_err]
  | ok a => simp [ebind_ok]

theorem emap_ok {α β : Type} (g : α → β) (a : α) :
    (g <$> (Except.ok a : Except PyError α)) = Except.ok (g a) := rfl

/-- With exact arithmetic, `np.arange(start, start + n)` has exactly `n`
samples `start + i`. -/
theorem npArange_nat (start : ℚ) (n : ℕ) :
    npArange start (start + n) =
      (List.range n).map (fun (i : ℕ) => start + (i : ℚ)) := by
  unfold npArange
  norm_num

theorem epure_eq_ok {α : Type} {a b : α} :
    (pure a : Except PyError α) = .ok b ↔ a = b := by
  constructor
  · intro h
    exact Except.ok.inj h
  · intro h
    rw [h]
    rfl

/-- Whatever else SpectrumData.__init__ derives, a successful construction
stores the constructor arguments unchanged in the base fields, with the wcs
necessarily present. -/
theorem spectrumInit_fields {d : NArr} {u : Option Uncert}
    {m : Option MaskV} {w : Option Wcs} {mt : MetaMap} {un : Option String}
    {s : SpectrumData} (h : SpectrumData.init d u m w mt un = .ok s) :
    s.data = d ∧ s.uncertainty = u ∧ s.mask = m ∧ s.wcs = w ∧
      s.meta = mt ∧ s.unit = un := by
  cases w with
  | none => exact absurd h (by simp [SpectrumData.init])
  | some w =>
    rw [SpectrumData.init] at h
    simp only [ebind_eq_ok, epure_eq_ok] at h
    obtain ⟨p, hp, dd, hdd, cr, hcr, h⟩ := h
    subst h
    exact ⟨rfl, rfl, rfl, rfl, rfl, rfl⟩

/-- Claim C2. The claim states that a SpectrumData constructed without a
coordinate mapping succeeds with a unitless 0..N-1 dispersion. The code
instead raises UnboundLocalError for every such construction: the
dispersion block of `__init__` is guarded by the presence of the wcs, but
the assignment of `_dispersion` at line 211 reads `disp_data` and
`disp_unit` unconditionally, and with no wcs they were never bound. This
theorem evaluates the constructor on the claim's inputs. -/
theorem spectrum_init_no_wcs_raises (data : NArr)
    (uncertainty : Option Uncert) (mask : Option MaskV) (mt : MetaMap)
    (unit : Option String) :
    SpectrumData.init data uncertainty mask none mt unit =
      Except.error PyError.unboundLocal := rfl

/-- Claim C10. Calling collapse_to_spectrum with the default filter_mask
(None) fails with a TypeError: line 138 evaluates `~filter_mask` before any
reduction or construction, and bitwise-not of None is a TypeError. The
source cube is a pure value in this embedding, so it is unchanged by the
failed call. -/
theorem collapse_to_spectrum_default_mask_raises (c : CubeData)
    (method : String) :
    c.collapse_to_spectrum method none = Except.error PyError.typeError :=
  rfl

/-- Claim C6. For any method name outside mean/median/mode the method
dispatch of collapse_to_image falls through to
`raise NotImplementedError`, and no ImageData is produced; the hypothesis
`hm` states that the masked-array construction on line 155 (which runs
first) accepts the cube's mask slot. -/
theorem collapse_to_image_unknown_method (c : CubeData)
    (wr : Option (Nat × Nat)) (axis : Nat) (method : String)
    (m0 : Option BMat3) (hm : asMask3 c.mask = .ok m0)
    (h1 : method ≠ "mean") (h2 : method ≠ "median") (h3 : method ≠ "mode") :
    c.collapse_to_image wr method axis =
      Except.error PyError.notImplemented := by
  rw [CubeData.collapse_to_image.eq_def, hm]
  rw [ebind_ok]
  split <;> simp_all [ebind_err]

/-- Witness for C6 at a concrete cube and the method name "bogus". -/
theorem collapse_to_image_unknown_method_witness :
    CubeData.collapse_to_image
      (CubeData.mk [[[1, 2]]] none none none [] none) none "bogus" 0 =
      Except.error PyError.notImplemented :=
  collapse_to_image_unknown_method _ _ _ _ none rfl (by decide) (by decide)
    (by decide)

/-- Claim C1. A successful get_spectrum(x, y) yields a SpectrumData whose
data is the source data sliced `[:, y, x]`, whose uncertainty (when the
cube has one) is the source uncertainty sliced `[:, x, y]`, whose mask
(when the cube has one) is the source mask sliced `[:, x, y]`, and which
inherits the cube's wcs, meta and unit. -/
theorem get_spectrum_indexing (c : CubeData) (x y : Nat) (s : SpectrumData)
    (h : c.get_spectrum x y = .ok s) :
    (∀ v, sliceCol c.data y x = .ok v → s.data = .a1 v) ∧
    (c.uncertainty = none → s.uncertainty = none) ∧
    (∀ uc a u, c.uncertainty = some uc → uc.array = .a3 a →
      sliceCol a x y = .ok u →
      s.uncertainty = some (Uncert.mk (.a1 u))) ∧
    (c.mask = none → s.mask = none) ∧
    (∀ m v, c.mask = some (MaskV.b3 m) → sliceCol m x y = .ok v →
      s.mask = some (MaskV.b1 v)) ∧
    s.wcs = c.wcs ∧ s.meta = c.meta ∧ s.unit = c.unit := by
  rw [CubeData.get_spectrum.eq_def] at h
  simp only [ebind_eq_ok] at h
  obtain ⟨nd, hnd, nu, hnu, nm, hnm, hinit⟩ := h
  obtain ⟨hsd, hsu, hsm, hsw, hsmt, hsun⟩ := spectrumInit_fields hinit
  refine ⟨?_, ?_, ?_, ?_, ?_, hsw, hsmt, hsun⟩
  · intro v hv
    rw [hnd] at hv
    injection hv with hv
    rw [← hv]
    exact hsd
  · intro hcu
    rw [hcu] at hnu
    simp only [sliceUncert, epure_eq_ok] at hnu
    rw [hsu, ← hnu]
  · intro uc a u hcu hua hslice
    rw [hcu] at hnu
    simp only [sliceUncert, hua] at hnu
    rw [hslice, ebind_ok] at hnu
    simp only [epure_eq_ok] at hnu
    rw [hsu, ← hnu]
  · intro hcm
    rw [hcm] at hnm
    simp only [sliceMask, epure_eq_ok] at hnm
    rw [hsm, ← hnm]
  · intro m v hcm hslice
    rw [hcm] at hnm
    simp only [sliceMask] at hnm
    rw [hslice, ebind_ok] at hnm
    simp only [epure_eq_ok] at hnm
    rw [hsm, ← hnm]


/-- Witness for C1: on cubeW the spectrum at (x, y) = (0, 1) picks
data[:, 1, 0] = [3, 7] but uncertainty[:, 0, 1] = [20, 60] and
mask[:, 0, 1] = [true, false], and inherits wcs, meta and unit. -/
theorem get_spectrum_indexing_witness :
    specW.data = .a1 [3, 7] ∧
    specW.uncertainty = some (Uncert.mk (.a1 [20, 60])) ∧
    specW.mask = some (MaskV.b1 [true, false]) ∧
    specW.wcs = cubeW.wcs ∧ specW.meta = cubeW.meta ∧
    specW.unit = cubeW.unit := by
  have hcand : npArange 0 (0 + ((NArr.a1 ([3, 7] : Vec)).shape0 : ℚ)) =
      [0, 1] := by
    rw [npArange_nat]
    norm_num [List.range_succ]
    decide
  have hinit :
      SpectrumData.init (.a1 [3, 7]) (some (Uncert.mk (.a1 [20, 60])))
        (some (MaskV.b1 [true, false])) (some wLin) [("k", "v")]
        (some "Jy") = .ok specW := by
    have hp : pyGet wLin.crpix (-1) = .ok 0 := rfl
    have hdd : dispFromCandidate wLin (NArr.a1 ([3, 7] : Vec)).shape0
        [0, 1] = .ok (DispVal.lin [0, 1], "m") := rfl
    have hcross : crossFromWcs wLin (NArr.a1 ([3, 7] : Vec)) =
        .ok none := rfl
    simp only [SpectrumData.init, hp, ebind_ok, hcand, hdd, hcross,
      epure_eq_ok, Option.map, specW]
  have h : cubeW.get_spectrum 0 1 = .ok specW := by
    have hslice : sliceCol cubeW.data 1 0 = .ok ([3, 7] : Vec) := rfl
    have hu : sliceUncert cubeW.uncertainty 0 1 =
        .ok (some (Uncert.mk (.a1 [20, 60]))) := rfl
    have hm : sliceMask cubeW.mask 0 1 =
        .ok (some (MaskV.b1 [true, false])) := rfl
    simp only [CubeData.get_spectrum, hslice, hu, hm, ebind_ok]
    exact hinit
  refine ⟨?_, ?_, ?_, ?_, ?_, ?_⟩
  · exact (get_spectrum_indexing cubeW 0 1 specW h).1 _ rfl
  · exact (get_spectrum_indexing cubeW 0 1 specW h).2.2.1 _ _ _ rfl rfl rfl
  · exact (get_spectrum_indexing cubeW 0 1 specW h).2.2.2.2.1 _ _ rfl rfl
  · exact (get_spectrum_indexing cubeW 0 1 specW h).2.2.2.2.2.1
  · exact (get_spectrum_indexing cubeW 0 1 specW h).2.2.2.2.2.2.1
  · exact (get_spectrum_indexing cubeW 0 1 specW h).2.2.2.2.2.2.2


/-- Counterexample for C3. With a mismatched candidate the dispersion
values do fall back to 0..N-1, but the result is not "the plain index
sequence with no unit": it carries the unit selected from the wcs ("m"
here), and under a WAVE-LOG axis type even the fallback values are routed
through the log transform (here the single sample becomes 500, not 0). -/
theorem disp_fallback_counterexample :
    dispFromCandidate wUnitful 3 [] =
      .ok (DispVal.lin [0, 1, 2], "m") ∧
    dispFromCandidate wLogMini 1 [] =
      .ok (DispVal.wlog 500 (1/1000) 0 [0], "m") ∧
    (DispVal.wlog 500 (1/1000) 0 [0]).toReals ≠
      (DispVal.lin [0]).toReals := by
  refine ⟨by decide, rfl, ?_⟩
  simp only [DispVal.toReals, List.map]
  intro hc
  have h0 : ((500 : ℚ) : ℝ) * Real.exp (((1/1000 : ℚ) : ℝ) *
      (((0 : ℚ) : ℝ) - ((0 : ℚ) : ℝ)) / ((500 : ℚ) : ℝ)) =
      ((0 : ℚ) : ℝ) := by
    injection hc
  rw [sub_self, mul_zero, zero_div, Real.exp_zero, mul_one] at h0
  norm_num at h0

/-- Claim C3 (amended): when the candidate index sequence's length differs
from data.shape[0] and the last axis type is not WAVE-LOG, the dispersion
values fall back to the plain index sequence 0..N-1, but the dispersion
still carries the unit selected from the wcs (cunit[-1] when exactly three
units are declared, cunit[0] otherwise); under WAVE-LOG the fallback values
are additionally log-transformed. -/
theorem disp_fallback_amended (w : Wcs) (n : Nat) (cand : Vec)
    (hlen : cand.length ≠ n) (uStr : String)
    (hu : dispUnitFromWcs w = .ok uStr)
    (t : String) (ht : pyGet w.ctype (-1) = .ok t)
    (hlog : t ≠ "WAVE-LOG") :
    dispFromCandidate w n cand =
      .ok (DispVal.lin ((List.range n).map (fun (i : ℕ) => (i : ℚ))), uStr) := by
  rw [dispFromCandidate]
  rw [if_pos hlen, hu, ebind_ok, ht, ebind_ok, if_neg hlog]
  rfl

/-- Witness for the amended C3 at the concrete mismatched input. -/
theorem disp_fallback_amended_witness :
    dispFromCandidate wUnitful 3 [] =
      .ok (DispVal.lin ((List.range 3).map (fun (i : ℕ) => (i : ℚ))), "m") :=
  disp_fallback_amended wUnitful 3 [] (by decide) "m" rfl "WAVE" rfl
    (by decide)

/-- With exact arithmetic the candidate always has exactly n samples. -/
theorem npArange_length (start : ℚ) (n : ℕ) :
    (npArange start (start + n)).length = n := by
  rw [npArange_nat, List.length_map, List.length_range]

/-- Sample k of the WAVE-LOG transform over an exact candidate sequence. -/
theorem wlog_toReals_getD (crval2 cd22 crpix2 start : ℚ) (n k : ℕ)
    (hk : k < n) :
    (DispVal.wlog crval2 cd22 crpix2
      (npArange start (start + (n : ℚ)))).toReals.getD k 0 =
      (crval2 : ℝ) * Real.exp ((cd22 : ℝ) *
        (((start + (k : ℚ) : ℚ) : ℝ) - (crpix2 : ℝ)) / (crval2 : ℝ)) := by
  rw [DispVal.toReals, npArange_nat, List.map_map]
  rw [List.getD_eq_getElem _ _ (by simpa using hk)]
  rw [List.getElem_map, List.getElem_range]
  simp [Function.comp]

/-- Claim C4. When construction succeeds under a WAVE-LOG axis type, the
dispersion samples are `crval2 * exp(cd22 * (x - crpix2) / crval2)` over
the candidate sequence x = crpix[-1] + k; in particular with crval2 = 500,
cd22 = 1/1000 and zero reference pixels, sample k equals
500 * exp((1/1000) * k / 500), which at k = 0 is exactly 500. -/
theorem spectrum_wavelog_dispersion (d : NArr) (u : Option Uncert)
    (m : Option MaskV) (w : Wcs) (mt : MetaMap) (un : Option String)
    (s : SpectrumData) (p crval2 cd22 crpix2 : ℚ) (cdrow : Vec)
    (h : SpectrumData.init d u m (some w) mt un = .ok s)
    (hp : pyGet w.crpix (-1) = .ok p)
    (ht : pyGet w.ctype (-1) = .ok "WAVE-LOG")
    (hv : pyGet w.crval 2 = .ok crval2)
    (hcd : pyGet w.cd 2 = .ok cdrow) (hcd2 : pyGet cdrow 2 = .ok cd22)
    (hpx : pyGet w.crpix 2 = .ok crpix2) :
    s.dispersion.value.toReals =
      (npArange p (p + (d.shape0 : ℚ))).map (fun (x : ℚ) => (crval2 : ℝ) *
        Real.exp ((cd22 : ℝ) * ((x : ℝ) - (crpix2 : ℝ)) /
          (crval2 : ℝ))) ∧
    (p = 0 → crpix2 = 0 → crval2 = 500 → cd22 = 1/1000 →
      ∀ k, k < d.shape0 →
        s.dispersion.value.toReals.getD k 0 =
          500 * Real.exp ((1/1000) * (k : ℝ) / 500)) := by
  rw [SpectrumData.init] at h
  rw [hp, ebind_ok] at h
  simp only [ebind_eq_ok, epure_eq_ok] at h
  obtain ⟨dd, hdd, cr, hcr, h⟩ := h
  rw [dispFromCandidate] at hdd
  rw [if_neg (not_not_intro (npArange_length p d.shape0))] at hdd
  rw [ebind_eq_ok] at hdd
  obtain ⟨uS, huS, hdd⟩ := hdd
  rw [ht, ebind_ok, if_pos rfl] at hdd
  rw [hv, ebind_ok, hcd, ebind_ok, hcd2, ebind_ok, hpx, ebind_ok] at hdd
  rw [epure_eq_ok] at hdd
  subst h
  rw [← hdd]
  constructor
  · rfl
  · intro hp0 hpx0 hv500 hcd1000 k hk
    subst hp0
    subst hpx0
    subst hv500
    subst hcd1000
    have hgoal : (DispVal.wlog (500 : ℚ) (1/1000) 0
        (npArange 0 (0 + (d.shape0 : ℚ)))).toReals.getD k 0 =
        500 * Real.exp ((1/1000) * (k : ℝ) / 500) := by
      rw [wlog_toReals_getD 500 (1/1000) 0 0 d.shape0 k hk]
      push_cast
      norm_num
    exact hgoal


/-- Witness for C4: on the concrete WAVE-LOG wcs the dispersion samples are
the log-transformed candidates and sample 0 is exactly 500. -/
theorem spectrum_wavelog_dispersion_witness :
    specLog.dispersion.value.toReals =
      (npArange 0 (0 + ((NArr.a1 ([1, 2, 3] : Vec)).shape0 : ℚ))).map
        (fun (x : ℚ) => ((500 : ℚ) : ℝ) * Real.exp (((1/1000 : ℚ) : ℝ) *
          ((x : ℝ) - ((0 : ℚ) : ℝ)) / ((500 : ℚ) : ℝ))) ∧
    specLog.dispersion.value.toReals.getD 0 0 =
      500 * Real.exp ((1/1000) * (((0 : ℕ)) : ℝ) / 500) ∧
    specLog.dispersion.value.toReals.getD 0 0 = 500 := by
  have hcand : npArange 0 (0 + ((NArr.a1 ([1, 2, 3] : Vec)).shape0 : ℚ)) =
      [0, 1, 2] := by
    rw [npArange_nat]
    norm_num [List.range_succ]
    decide
  have hinit : SpectrumData.init (.a1 [1, 2, 3]) none none (some wLogMini)
      [] none = .ok specLog := by
    have hp : pyGet wLogMini.crpix (-1) = .ok 0 := rfl
    have hdd : dispFromCandidate wLogMini
        (NArr.a1 ([1, 2, 3] : Vec)).shape0 [0, 1, 2] =
        .ok (DispVal.wlog 500 (1/1000) 0 [0, 1, 2], "m") := rfl
    have hcross : crossFromWcs wLogMini (NArr.a1 ([1, 2, 3] : Vec)) =
        .ok none := rfl
    simp only [SpectrumData.init, hp, ebind_ok, hcand, hdd, hcross,
      epure_eq_ok, Option.map, specLog]
  have h := spectrum_wavelog_dispersion (.a1 [1, 2, 3]) none none wLogMini
    [] none specLog 0 500 (1/1000) 0 [0, 0, 1/1000] hinit rfl rfl rfl rfl
    rfl rfl
  refine ⟨h.1, h.2 rfl rfl rfl rfl 0 (by decide), ?_⟩
  rw [h.2 rfl rfl rfl rfl 0 (by decide)]
  norm_num

/-- A successful ImageData construction stores the constructor arguments
unchanged in the base fields. -/
theorem imageInit_fields {d : Mat2} {u : Option Uncert}
    {m : Option MaskV} {w : Option Wcs} {mt : MetaMap} {un : Option String}
    {img : ImageData} (h : ImageData.init d u m w mt un = .ok img) :
    img.data = d ∧ img.uncertainty = u ∧ img.mask = m ∧ img.wcs = w ∧
      img.meta = mt ∧ img.unit = un := by
  cases w with
  | none =>
    rw [ImageData.init] at h
    rw [epure_eq_ok] at h
    subst h
    exact ⟨rfl, rfl, rfl, rfl, rfl, rfl⟩
  | some w =>
    rw [ImageData.init] at h
    simp only [ebind_eq_ok, epure_eq_ok] at h
    obtain ⟨a1, h1, a2, h2, a3, h3, a4, h4, a5, h5, a6, h6, a7, h7, a8, h8,
      h⟩ := h
    subst h
    exact ⟨rfl, rfl, rfl, rfl, rfl, rfl⟩

/-- Claim C5. A successful mean collapse_to_image yields an ImageData with
no uncertainty and with the cube's own full, unreduced mask slot (the 3-D
source mask when one is present), inheriting wcs, meta and unit. -/
theorem collapse_to_image_mean_fields (c : CubeData)
    (wr : Option (Nat × Nat)) (axis : Nat) (img : ImageData)
    (h : c.collapse_to_image wr "mean" axis = .ok img) :
    img.uncertainty = none ∧ img.mask = c.mask ∧ img.wcs = c.wcs ∧
      img.meta = c.meta ∧ img.unit = c.unit ∧
      (∀ m3, c.mask = some (MaskV.b3 m3) →
        img.mask = some (MaskV.b3 m3)) := by
  rw [CubeData.collapse_to_image.eq_def] at h
  simp only [ebind_eq_ok] at h
  obtain ⟨m0, hm0, red, hred, hinit⟩ := h
  obtain ⟨hd, hu, hm, hw, hmt, hun⟩ := imageInit_fields hinit
  refine ⟨hu, hm, hw, hmt, hun, ?_⟩
  intro m3 hc3
  rw [hm, hc3]

/-- Witness for C5: a 1 x 1 x 1 cube with a fully masked 3-D mask and no
wcs; the collapsed image keeps the full 3-D mask and drops uncertainty. -/
theorem collapse_to_image_mean_fields_witness :
    (ImageData.mk [[0]] none (some (MaskV.b3 [[[true]]])) none [] none
        none none).uncertainty = none ∧
    (ImageData.mk [[0]] none (some (MaskV.b3 [[[true]]])) none [] none
        none none).mask =
      (CubeData.mk [[[1]]] none (some (MaskV.b3 [[[true]]])) none []
        none).mask ∧
    (ImageData.mk [[0]] none (some (MaskV.b3 [[[true]]])) none [] none
        none none).mask = some (MaskV.b3 [[[true]]]) := by
  have h := collapse_to_image_mean_fields
    (CubeData.mk [[[1]]] none (some (MaskV.b3 [[[true]]])) none [] none)
    none 0
    (ImageData.mk [[0]] none (some (MaskV.b3 [[[true]]])) none [] none
      none none) rfl
  exact ⟨h.1, h.2.1, h.2.2.2.2.2 [[[true]]] rfl⟩


/-- The arithmetic kernel preserves the receiver's concrete type and wcs. -/
theorem ndArith_fields (f : ℚ → ℚ → ℚ) (self : BData) (o : NDDataW)
    (r : BData) (h : ndArith f self o = .ok r) :
    r.ctype = self.ctype ∧ r.wcs = self.wcs := by
  rw [ndArith] at h
  rw [ebind_eq_ok] at h
  obtain ⟨d, hd, h⟩ := h
  rw [epure_eq_ok] at h
  subst h
  exact ⟨rfl, rfl⟩

/-- Claim C7. Every operator (+, -, *, /) returns, whenever it returns, a
value of the receiver's concrete subtype (never the operand's) carrying the
receiver's wcs, for scalar, bare-array and NDData-like operands alike; the
embedding is pure, so the receiver's own fields are never mutated. -/
theorem basedata_arith_closure (a : BData) (b : Operand) :
    (∀ r, a.addOp b = .ok r → r.ctype = a.ctype ∧ r.wcs = a.wcs) ∧
    (∀ r, a.subOp b = .ok r → r.ctype = a.ctype ∧ r.wcs = a.wcs) ∧
    (∀ r, a.mulOp b = .ok r → r.ctype = a.ctype ∧ r.wcs = a.wcs) ∧
    (∀ r, a.divOp b = .ok r → r.ctype = a.ctype ∧ r.wcs = a.wcs) := by
  refine ⟨fun r h => ?_, fun r h => ?_, fun r h => ?_, fun r h => ?_⟩ <;>
    cases b <;> exact ndArith_fields _ _ _ _ h


/-- Witness for C7: concrete cube + image operands; all four operators
return cube-typed results carrying the cube's wcs. -/
theorem basedata_arith_closure_witness :
    ((rOpW [4, 6]).ctype = aW.ctype ∧ (rOpW [4, 6]).wcs = aW.wcs) ∧
    ((rOpW [-2, -2]).ctype = aW.ctype ∧ (rOpW [-2, -2]).wcs = aW.wcs) ∧
    ((rOpW [3, 8]).ctype = aW.ctype ∧ (rOpW [3, 8]).wcs = aW.wcs) ∧
    ((rOpW [1/3, 1/2]).ctype = aW.ctype ∧
      (rOpW [1/3, 1/2]).wcs = aW.wcs) := by
  have h := basedata_arith_closure aW (.nd bW)
  refine ⟨h.1 _ ?_, h.2.1 _ ?_, h.2.2.1 _ ?_, h.2.2.2 _ ?_⟩
  · norm_num [aW, bW, rOpW, BData.addOp, ndArith, zipSame, zipExact1,
      ebind_ok, epure_eq_ok]
  · norm_num [aW, bW, rOpW, BData.subOp, ndArith, zipSame, zipExact1,
      ebind_ok, epure_eq_ok]
  · norm_num [aW, bW, rOpW, BData.mulOp, ndArith, zipSame, zipExact1,
      ebind_ok, epure_eq_ok]
  · norm_num [aW, bW, rOpW, BData.divOp, ndArith, zipSame, zipExact1,
      ebind_ok, epure_eq_ok]

theorem zipExact1_full (f : ℚ → ℚ → ℚ) (v : Vec) (c : ℚ) :
    zipExact1 f v (List.replicate v.length c) =
      .ok (v.map (fun x => f x c)) := by
  induction v with
  | nil => rfl
  | cons a as ih =>
    simp [zipExact1, List.replicate, ih, emap_ok, ebind_ok]

theorem zipExact2_full (f : ℚ → ℚ → ℚ) (m : Mat2) (c : ℚ) :
    zipExact2 f m (m.map (fun row => List.replicate row.length c)) =
      .ok (m.map (fun row => row.map (fun x => f x c))) := by
  induction m with
  | nil => rfl
  | cons r rs ih =>
    simp [zipExact2, zipExact1_full, ih, emap_ok, ebind_ok]

theorem zipExact3_full (f : ℚ → ℚ → ℚ) (t : Mat3) (c : ℚ) :
    zipExact3 f t
      (t.map (fun p => p.map (fun row => List.replicate row.length c))) =
      .ok (t.map (fun p => p.map (fun row => row.map (fun x => f x c)))) := by
  induction t with
  | nil => rfl
  | cons p ps ih =>
    simp [zipExact3, zipExact2_full, ih, emap_ok, ebind_ok]

/-- Combining an array with a same-shaped constant fill is elementwise. -/
theorem zipSame_full (f : ℚ → ℚ → ℚ) (d : NArr) (c : ℚ) :
    zipSame f d (fullLike d c) = .ok (NArr.mapQ (fun x => f x c) d) := by
  cases d with
  | a1 v =>
    simp [zipSame, fullLike, NArr.mapQ, zipExact1_full, emap_ok, ebind_ok]
  | a2 m =>
    simp [zipSame, fullLike, NArr.mapQ, zipExact2_full, emap_ok, ebind_ok]
  | a3 t =>
    simp [zipSame, fullLike, NArr.mapQ, zipExact3_full, emap_ok, ebind_ok]

theorem mapQ_add_zero (d : NArr) : NArr.mapQ (fun x => x + 0) d = d := by
  cases d <;> simp [NArr.mapQ]

theorem mapQ_mul_one (d : NArr) : NArr.mapQ (fun x => x * 1) d = d := by
  cases d <;> simp [NArr.mapQ]

/-- Claim C9. Adding the scalar 0 and multiplying by the scalar 1 succeed
on every container with a defined unit and leave the data array unchanged
elementwise (exactly, since the embedding is exact rational arithmetic). -/
theorem arith_identity (a : BData) (u : String) (_hu : a.unit = some u) :
    (∃ r, a.addOp (.scalar 0) = .ok r ∧ r.data = a.data) ∧
    (∃ r, a.mulOp (.scalar 1) = .ok r ∧ r.data = a.data) := by
  constructor
  · refine ⟨BData.mk a.ctype (NArr.mapQ (fun x => x + 0) a.data) none none
      a.wcs a.unit, ?_, ?_⟩
    · show ndArith (fun x y => x + y) a
        (NDDataW.mk (fullLike a.data 0) a.wcs a.unit none none) = _
      rw [ndArith, zipSame_full, ebind_ok]
      rfl
    · show NArr.mapQ (fun x => x + 0) a.data = a.data
      exact mapQ_add_zero a.data
  · refine ⟨BData.mk a.ctype (NArr.mapQ (fun x => x * 1) a.data) none none
      a.wcs a.unit, ?_, ?_⟩
    · show ndArith (fun x y => x * y) a
        (NDDataW.mk (fullLike a.data 1) a.wcs a.unit none none) = _
      rw [ndArith, zipSame_full, ebind_ok]
      rfl
    · show NArr.mapQ (fun x => x * 1) a.data = a.data
      exact mapQ_mul_one a.data

/-- Witness for C9 at the concrete container aW (unit "m"). -/
theorem arith_identity_witness :
    (∃ r, aW.addOp (.scalar 0) = .ok r ∧ r.data = aW.data) ∧
    (∃ r, aW.mulOp (.scalar 1) = .ok r ∧ r.data = aW.data) :=
  arith_identity aW "m" rfl

/-- Counterexample for C8 on the method "median": masked arrays have no
median method, so collapse raises AttributeError instead of returning a
SpectrumData at all. -/
theorem spectrum_collapse_median_raises :
    (SpectrumData.mk (.a2 [[1, 2]]) (some (Uncert.mk (.a2 [[3, 4]])))
        none (some wLin) [] none (Quantity.mk (.lin []) none) none
        (Quantity.mk (.a2 [[1, 2]]) none) none).collapse "median" 1
        (some [[true, true]]) = .error PyError.attributeError := rfl

/-- Claim C8 (amended to mean/sum). For a spectrum with a rank-2
uncertainty, a successful mean or sum collapse returns a SpectrumData whose
mask slot holds the reduced uncertainty masked array itself (payload and
mask, not a boolean validity mask), where the reduction of the uncertainty
uses the logical NOT of filter_mask as its exclusion mask; the new
uncertainty wraps the same reduced payload. -/
theorem spectrum_collapse_mask_semantics (s : SpectrumData) (axis : Nat)
    (fm : Option BMat2) (r : SpectrumData) (uc : Uncert) (ua : Mat2)
    (cell : Vec → BVec → ℚ × Bool) (method : String)
    (hcell : (method = "mean" ∧ cell = maskedMeanCell) ∨
      (method = "sum" ∧ cell = maskedSumCell))
    (hu : s.uncertainty = some uc) (hua : uc.array = .a2 ua)
    (h : s.collapse method axis fm = .ok r) :
    ∀ redU, mReduce2 cell ua (fm.map not2) axis = .ok redU →
      r.mask = some (MaskV.m1 redU.1 redU.2) ∧
      r.uncertainty = some (Uncert.mk (.a1 redU.1)) := by
  intro redU0 hredU0
  rw [SpectrumData.collapse.eq_def] at h
  simp only [ebind_eq_ok] at h
  obtain ⟨d2, hd2, ua1, hua1, cell1, hcell1, redD, hredD, redU, hredU,
    hinit⟩ := h
  have hua2 : ua1 = ua := by
    rw [hu] at hua1
    rw [uncertArr2, hua, asMat2] at hua1
    rw [epure_eq_ok] at hua1
    exact hua1.symm
  have hcell2 : cell1 = cell := by
    rcases hcell with ⟨hm, hc⟩ | ⟨hm, hc⟩ <;> subst hm <;>
      rw [cellForMethod] at hcell1 <;> rw [epure_eq_ok] at hcell1 <;>
      rw [hc] <;> exact hcell1.symm
  rw [hua2, hcell2] at hredU
  rw [hredU0] at hredU
  obtain rfl : redU0 = redU := Except.ok.inj hredU
  obtain ⟨hsd, hsu, hsm, hsw, hsmt, hsun⟩ := spectrumInit_fields hinit
  exact ⟨hsm, hsu⟩


/-- Witness for the amended C8: a concrete 1 x 1 spectrum collapsed by sum
with a filter_mask that keeps nothing; the result stores the reduced
uncertainty masked array ([0] with mask [true]) in its mask slot. -/
theorem spectrum_collapse_mask_semantics_witness :
    specC8.mask = some (MaskV.m1 [0] [true]) ∧
    specC8.uncertainty = some (Uncert.mk (.a1 [0])) := by
  have hcand : npArange 0 (0 + ((NArr.a1 ([0] : Vec)).shape0 : ℚ)) =
      [0] := by
    rw [npArange_nat]
    norm_num [List.range_succ]
    decide
  have hinit : SpectrumData.init (.a1 [0]) (some (Uncert.mk (.a1 [0])))
      (some (MaskV.m1 [0] [true])) (some wLin) [] none = .ok specC8 := by
    have hp : pyGet wLin.crpix (-1) = .ok 0 := rfl
    have hdd : dispFromCandidate wLin (NArr.a1 ([0] : Vec)).shape0 [0] =
        .ok (DispVal.lin [0], "m") := rfl
    have hcross : crossFromWcs wLin (NArr.a1 ([0] : Vec)) = .ok none := rfl
    simp only [SpectrumData.init, hp, ebind_ok, hcand, hdd, hcross,
      epure_eq_ok, Option.map, specC8]
  have h : (SpectrumData.mk (.a2 [[1]]) (some (Uncert.mk (.a2 [[2]])))
      none (some wLin) [] none (Quantity.mk (.lin []) none) none
      (Quantity.mk (.a2 [[1]]) none) none).collapse "sum" 1
      (some [[false]]) = .ok specC8 := by
    show SpectrumData.init (.a1 [0]) (some (Uncert.mk (.a1 [0])))
      (some (MaskV.m1 [0] [true])) (some wLin) [] none = .ok specC8
    exact hinit
  exact spectrum_collapse_mask_semantics _ 1 (some [[false]]) specC8
    (Uncert.mk (.a2 [[2]])) [[2]] maskedSumCell "sum" (Or.inr ⟨rfl, rfl⟩)
    rfl rfl h ([0], [true]) rfl

end CubeTools
